import Mathlib

/-!
Shallow embedding of the session cache subsystem of
`src/utils/sessionManager.ts` (class `SessionManager`).

Timestamps are `Nat` (milliseconds, as produced by `Date.now()`); the
filesystem is an explicit state (`FS`): a directory-existence flag, the
directory's `.json` files in directory order (each file carrying its
decoded content — `none` models bytes that `JSON.parse` rejects — plus the
`birthtimeMs` and `mtimeMs` that `fs.statSync` reports), and two fault-
injection lists naming the keys on which `fs.unlinkSync` respectively
`fs.writeFileSync` throw.  Every store operation takes the current time
explicitly; within one operation the several `Date.now()` calls of the
source are modelled as a single instant.
-/

/-- Characters kept unchanged by the sanitizer: the regex class
`[a-zA-Z0-9-_]` of `getSessionFilePath` (line 312). -/
def isSafeChar (c : Char) : Bool :=
  ('a' ≤ c && c ≤ 'z') || ('A' ≤ c && c ≤ 'Z') || ('0' ≤ c && c ≤ '9')
    || c == '-' || c == '_'

/-- Per-character action of `sessionId.replace(/[^a-zA-Z0-9-_]/g, "-")`. -/
def sanitizeChar (c : Char) : Char :=
  if isSafeChar c then c else '-'

/-- Storage key computed by `getSessionFilePath`: every character outside
`[a-zA-Z0-9-_]` is replaced by a dash; the physical file is this key plus
the `.json` suffix, which we leave implicit. -/
def getSessionKey (sessionId : String) : String :=
  String.mk (sessionId.data.map sanitizeChar)

/-- Modelled from the spec: §4.1 KeyPathResolver — after replacement,
consecutive replacement characters collapse to one.  Used only to compare
the spec's resolver with the code's. -/
def collapseDashes : List Char → List Char
  | [] => []
  | [c] => [c]
  | a :: b :: rest =>
    if a == '-' && b == '-' then collapseDashes (b :: rest)
    else a :: collapseDashes (b :: rest)

/-- Modelled from the spec: §4.1 KeyPathResolver — replace unsafe
characters with `-`, collapse runs of the replacement character, strip
leading/trailing separators, and fall back to the literal `"session"`
when the result is empty. -/
def specResolve (sessionId : String) : String :=
  let replaced := sessionId.data.map sanitizeChar
  let collapsed := collapseDashes replaced
  let stripped :=
    ((collapsed.dropWhile (fun c => c == '-')).reverse.dropWhile
      (fun c => c == '-')).reverse
  if stripped.isEmpty then "session" else String.mk stripped

/-- Eviction policies of `SessionConfig.evictionPolicy`. -/
inductive EvictionPolicy
  | fifo
  | lru
deriving DecidableEq

/-- Effective configuration of one `SessionManager` (interface
`SessionConfig`). -/
structure SessionConfig where
  toolName : String
  ttl : Nat
  maxSessions : Nat
  evictionPolicy : EvictionPolicy
deriving DecidableEq

/-- Caller-supplied partial configuration (`Partial<SessionConfig>`). -/
structure PartialConfig where
  ttl : Option Nat
  maxSessions : Option Nat
  evictionPolicy : Option EvictionPolicy
deriving DecidableEq

/-- The `DEFAULT_CONFIGS` table (lines 38-54). -/
def DEFAULT_CONFIGS (toolName : String) : PartialConfig :=
  if toolName == "review-code" then
    ⟨some (24 * 60 * 60 * 1000), some 20, some .fifo⟩
  else if toolName == "ask-gemini" then
    ⟨some (7 * 24 * 60 * 60 * 1000), some 50, some .lru⟩
  else if toolName == "brainstorm" then
    ⟨some (14 * 24 * 60 * 60 * 1000), some 30, some .lru⟩
  else ⟨none, none, none⟩

/-- Configuration resolution of the constructor (lines 75-82): caller
override, else per-tool default, else the hard-coded fallback. -/
def resolveConfig (toolName : String) (custom : PartialConfig) : SessionConfig :=
  let d := DEFAULT_CONFIGS toolName
  { toolName := toolName
    ttl := custom.ttl.getD (d.ttl.getD (24 * 60 * 60 * 1000))
    maxSessions := custom.maxSessions.getD (d.maxSessions.getD 20)
    evictionPolicy := custom.evictionPolicy.getD (d.evictionPolicy.getD .lru) }

/-- The mandatory base fields of every stored session (interface
`SessionData`); tool-specific extra fields are opaque to the store and
collapsed into the single `payload` string. -/
structure SessionData where
  sessionId : String
  createdAt : Nat
  lastAccessedAt : Nat
  payload : String
deriving DecidableEq

/-- On-disk envelope (interface `SessionCacheEntry`). -/
structure SessionCacheEntry where
  data : SessionData
  timestamp : Nat
  expiryTime : Nat
deriving DecidableEq

/-- One physical `.json` file: its decoded content (`none` when the bytes
do not parse), and the stat times used by eviction. -/
structure SFile where
  content : Option SessionCacheEntry
  birthtimeMs : Nat
  mtimeMs : Nat
deriving DecidableEq

/-- The cache directory state plus injected I/O faults. -/
structure FS where
  dirExists : Bool
  files : List (String × SFile)
  failUnlink : List String
  failWrite : List String
deriving DecidableEq

deriving instance DecidableEq for Except

/-- A fresh filesystem: no directory, no files, no injected faults. -/
def emptyFS : FS := ⟨false, [], [], []⟩

/-- Lookup of `fs.existsSync` + read: the file stored at a key. -/
def FS.find (fs : FS) (k : String) : Option SFile :=
  (fs.files.find? (fun p => p.1 == k)).map (fun p => p.2)

/-- Removal of the file at a key (`fs.unlinkSync` when it succeeds). -/
def FS.erase (fs : FS) (k : String) : FS :=
  { fs with files := fs.files.filter (fun p => p.1 != k) }

/-- An unlink whose failure is swallowed by the caller (a bare
`try { fs.unlinkSync } catch {}` or a logged-and-ignored error). -/
def FS.tryUnlink (fs : FS) (k : String) : FS :=
  if fs.failUnlink.contains k then fs else fs.erase k

/-- An unlink whose failure propagates as an exception. -/
def FS.unlinkE (fs : FS) (k : String) : Except Unit FS :=
  if fs.failUnlink.contains k then .error () else .ok (fs.erase k)

/-- Model of `fs.writeFileSync(filePath, JSON.stringify(entry))`: an
existing file keeps its position and its `birthtimeMs` and gets a new
`mtimeMs`; a new file is appended with both stat times set to now.
Failure propagates as an exception. -/
def FS.writeEntry (fs : FS) (k : String) (e : SessionCacheEntry) (now : Nat) :
    Except Unit FS :=
  if fs.failWrite.contains k then .error ()
  else if (fs.files.find? (fun p => p.1 == k)).isSome then
    .ok { fs with files := fs.files.map (fun p =>
      if p.1 == k then (p.1, ⟨some e, p.2.birthtimeMs, now⟩) else p) }
  else
    .ok { fs with files := fs.files ++ [(k, ⟨some e, now, now⟩)] }

/-- Method `ensureCacheDir` (lines 91-96): create the directory when it
does not yet exist; a no-op otherwise. -/
def FS.ensureDir (fs : FS) : FS := { fs with dirExists := true }

/-- Method `cleanExpiredSessions` (lines 232-262): ensure the directory,
scan every `.json` file, and unlink every file that decodes and whose
`expiryTime` lies strictly in the past; decode failures are logged and
skipped, and a failing unlink is caught per-file and leaves the file in
place. -/
def cleanExpiredSessions (fs : FS) (now : Nat) : FS :=
  { fs with dirExists := true, files := fs.files.filter (fun p =>
      match p.2.content with
      | some e => !(decide (now > e.expiryTime)) || fs.failUnlink.contains p.1
      | none => true) }

/-- Sort key of `enforceSessionLimits`: FIFO compares
`stat.birthtimeMs`, LRU compares `stat.mtimeMs` (lines 283-289). -/
def evKey (pol : EvictionPolicy) (p : String × SFile) : Nat :=
  match pol with
  | .fifo => p.2.birthtimeMs
  | .lru => p.2.mtimeMs

/-- Comparison relation used by the eviction sort. -/
def evLe (pol : EvictionPolicy) (a b : String × SFile) : Prop :=
  evKey pol a ≤ evKey pol b

instance (pol : EvictionPolicy) : DecidableRel (evLe pol) :=
  fun a b => Nat.decLe (evKey pol a) (evKey pol b)

instance (pol : EvictionPolicy) : IsTotal (String × SFile) (evLe pol) :=
  ⟨fun a b => Nat.le_total (evKey pol a) (evKey pol b)⟩

instance (pol : EvictionPolicy) : IsTrans (String × SFile) (evLe pol) :=
  ⟨fun _ _ _ hab hbc => Nat.le_trans hab hbc⟩

/-- Method `enforceSessionLimits` (lines 267-305): when the number of
files exceeds `maxSessions`, stably sort ascending by the policy's stat
time and unlink the first `count - maxSessions` files; individual unlink
failures are swallowed.  `Array.prototype.sort` is stable, as is
`List.insertionSort`. -/
def enforceSessionLimits (cfg : SessionConfig) (fs : FS) : FS :=
  if fs.files.length ≤ cfg.maxSessions then fs
  else
    (((List.insertionSort (evLe cfg.evictionPolicy) fs.files).take
      (fs.files.length - cfg.maxSessions)).foldl (fun s p => s.tryUnlink p.1) fs)

/-- The cache entry built by `save` (lines 109-117): the stored data is
the caller's payload with `sessionId` and `lastAccessedAt` overwritten;
`createdAt` (and every other payload field) passes through verbatim. -/
def mkCacheEntry (cfg : SessionConfig) (sessionId : String)
    (data : SessionData) (now : Nat) : SessionCacheEntry :=
  { data := { data with sessionId := sessionId, lastAccessedAt := now }
    timestamp := now
    expiryTime := now + cfg.ttl }

/-- Method `save` (lines 103-128): ensure the directory, sweep expired
entries, write the new envelope (a write failure is re-thrown to the
caller), then enforce the session limit. -/
def SessionManager.save (cfg : SessionConfig) (fs : FS) (sessionId : String)
    (data : SessionData) (now : Nat) : Except Unit FS :=
  match (cleanExpiredSessions fs now).writeEntry (getSessionKey sessionId)
      (mkCacheEntry cfg sessionId data now) now with
  | .error e => .error e
  | .ok fs3 => .ok (enforceSessionLimits cfg fs3)

/-- Method `load` (lines 135-171): absent file yields `none`; undecodable
bytes are cleaned up (unlink failure swallowed) and yield `none`; an
expired entry is unlinked and yields `none` (if that unlink throws, the
outer catch retries it, swallows the failure, and still yields `none`);
under LRU the surviving entry is rewritten with a refreshed
`lastAccessedAt` and `timestamp` (a failing rewrite lands in the catch
block, which unlinks the file and yields `none`). -/
def SessionManager.load (cfg : SessionConfig) (fs : FS) (sessionId : String)
    (now : Nat) : Option SessionData × FS :=
  match fs.find (getSessionKey sessionId) with
  | none => (none, fs)
  | some f =>
    match f.content with
    | none => (none, fs.tryUnlink (getSessionKey sessionId))
    | some e =>
      if now > e.expiryTime then (none, fs.tryUnlink (getSessionKey sessionId))
      else if cfg.evictionPolicy = .lru then
        match fs.writeEntry (getSessionKey sessionId)
            ⟨{ e.data with lastAccessedAt := now }, now, e.expiryTime⟩ now with
        | .ok fs2 => (some { e.data with lastAccessedAt := now }, fs2)
        | .error _ => (none, fs.tryUnlink (getSessionKey sessionId))
      else (some e.data, fs)

/-- Method `list` (lines 177-206): ensure the directory and return, in
directory order, the data of every file that decodes and is not expired;
undecodable files are logged and skipped; nothing is mutated. -/
def SessionManager.list (fs : FS) (now : Nat) : List SessionData × FS :=
  (fs.files.filterMap (fun p =>
    match p.2.content with
    | some e => if now ≤ e.expiryTime then some e.data else none
    | none => none), fs.ensureDir)

/-- Method `delete` (lines 213-227): unlink the file when present and
report whether something was removed; an unlink failure is caught, logged
and reported as `false` — the exception never escapes. -/
def SessionManager.delete (fs : FS) (sessionId : String) :
    Except Unit (Bool × FS) :=
  if (fs.find (getSessionKey sessionId)).isSome then
    match fs.unlinkE (getSessionKey sessionId) with
    | .ok fs2 => .ok (true, fs2)
    | .error _ => .ok (false, fs)
  else .ok (false, fs)

/-- The constructor (lines 74-86): resolve the effective configuration
and eagerly call `ensureCacheDir`. -/
def SessionManager.construct (toolName : String) (custom : PartialConfig)
    (fs : FS) : SessionConfig × FS :=
  (resolveConfig toolName custom, fs.ensureDir)

/-! ## Pure facts about the key sanitizer -/

/-- Output characters of the sanitizer always lie in the safe class. -/
lemma isSafeChar_sanitizeChar (c : Char) : isSafeChar (sanitizeChar c) = true := by
  unfold sanitizeChar
  split
  · assumption
  · decide

/-- Pointwise idempotence of the per-character sanitizer. -/
lemma sanitizeChar_idem (c : Char) : sanitizeChar (sanitizeChar c) = sanitizeChar c := by
  have h := isSafeChar_sanitizeChar c
  show (if isSafeChar (sanitizeChar c) then sanitizeChar c else '-') = sanitizeChar c
  simp [h]

/-- Mapping the sanitizer twice over a character list equals mapping once. -/
lemma map_sanitizeChar_idem (l : List Char) :
    (l.map sanitizeChar).map sanitizeChar = l.map sanitizeChar := by
  induction l with
  | nil => rfl
  | cons c l ih => simp [sanitizeChar_idem, ih]

/-- C7 counterexample: on the input `"!!"` the code's resolver keeps both
replacement dashes, while the resolver described by the spec (collapse,
strip, fallback) would return the literal `"session"`. -/
theorem sanitize_diverges_from_spec_resolver_cex :
    getSessionKey "!!" = "--" ∧ specResolve "!!" = "session" ∧
      getSessionKey "!!" ≠ specResolve "!!" := by
  decide

/-- C7 amended: the resolver replaces each unsafe character by a dash and
nothing more — it preserves length (so it neither collapses runs nor
strips separators), every output character is filesystem-safe, and the
empty identifier stays empty (no fallback key).  Determinism is immediate
since `getSessionKey` is a function of the identifier alone. -/
theorem sanitize_charwise_no_collapse :
    ∀ id : String,
      (getSessionKey id).length = id.length ∧
      (getSessionKey id).data.all isSafeChar = true ∧
      getSessionKey "" = "" := by
  intro id
  refine ⟨?_, ?_, by decide⟩
  · show (List.map sanitizeChar id.data).length = id.data.length
    simp
  · simp only [getSessionKey, List.all_eq_true]
    intro c hc
    rcases List.mem_map.mp hc with ⟨c0, _, rfl⟩
    exact isSafeChar_sanitizeChar c0

/-- C8: the key sanitization is idempotent. -/
theorem sanitize_idempotent :
    ∀ id : String, getSessionKey (getSessionKey id) = getSessionKey id := by
  intro id
  exact congrArg String.mk (map_sanitizeChar_idem id.data)

/-! ## Directory lifecycle (C9) -/

/-- C9 counterexample: constructing a manager on a filesystem without the
cache directory mutates storage — the constructor calls `ensureCacheDir`
eagerly, so the directory exists right after construction. -/
theorem constructor_creates_dir_cex :
    emptyFS.dirExists = false ∧
    ((SessionManager.construct "brainstorm" ⟨none, none, none⟩ emptyFS).2).dirExists = true ∧
    (SessionManager.construct "brainstorm" ⟨none, none, none⟩ emptyFS).2 ≠ emptyFS := by
  decide

/-- C9 amended: directory creation is idempotent and touches nothing but
the directory itself, but it is eager — it happens at construction, and
is re-run by `list` and by the sweep that starts every `save`. -/
theorem dir_creation_eager_idempotent :
    ∀ (tn : String) (cc : PartialConfig) (fs : FS) (now : Nat),
      ((SessionManager.construct tn cc fs).2).dirExists = true ∧
      ((SessionManager.construct tn cc fs).2).files = fs.files ∧
      (SessionManager.construct tn cc ((SessionManager.construct tn cc fs).2)).2 =
        (SessionManager.construct tn cc fs).2 ∧
      ((SessionManager.list fs now).2).dirExists = true ∧
      (cleanExpiredSessions fs now).dirExists = true := by
  intro tn cc fs now
  refine ⟨rfl, rfl, rfl, rfl, rfl⟩

/-! ## Delete and error surfacing (C6) -/

/-- Filesystem for the C6 counterexample: the entry `"a"` exists and its
unlink is set up to fail with an I/O error. -/
def fsDeleteFail : FS :=
  ⟨true, [("a", ⟨some ⟨⟨"a", 0, 0, "q"⟩, 0, 10⟩, 0, 0⟩)], ["a"], []⟩

/-- C6 counterexample: when the underlying unlink fails on an existing
entry, `delete` does not surface the failure — it returns normally with
`false` and the entry is still present. -/
theorem delete_failure_swallowed_cex :
    (FS.find fsDeleteFail "a").isSome = true ∧
    fsDeleteFail.failUnlink.contains "a" = true ∧
    SessionManager.delete fsDeleteFail "a" = .ok (false, fsDeleteFail) := by
  decide

/-- C6 amended: `delete` never surfaces an error: it returns `true`
exactly when the entry existed and the unlink succeeded, and `false` both
on absence and on a swallowed unlink failure; only `save` surfaces a
storage failure to its caller. -/
theorem delete_total_and_save_surfaces :
    (∀ (fs : FS) (id : String), (SessionManager.delete fs id).isOk = true) ∧
    (∀ (fs : FS) (id : String),
      SessionManager.delete fs id = .ok (true, FS.erase fs (getSessionKey id)) ↔
        (FS.find fs (getSessionKey id)).isSome = true ∧
          getSessionKey id ∉ fs.failUnlink) ∧
    (∀ (cfg : SessionConfig) (fs : FS) (id : String) (data : SessionData) (now : Nat),
      getSessionKey id ∈ fs.failWrite →
        SessionManager.save cfg fs id data now = .error ()) := by
  refine ⟨?_, ?_, ?_⟩
  · intro fs id
    by_cases h1 : (FS.find fs (getSessionKey id)).isSome = true
    · by_cases h2 : getSessionKey id ∈ fs.failUnlink
      · simp [SessionManager.delete, FS.unlinkE, h1, h2, Except.isOk, Except.toBool]
      · simp [SessionManager.delete, FS.unlinkE, h1, h2, Except.isOk, Except.toBool]
    · simp [SessionManager.delete, FS.unlinkE, h1, Except.isOk, Except.toBool]
  · intro fs id
    by_cases h1 : (FS.find fs (getSessionKey id)).isSome = true
    · by_cases h2 : getSessionKey id ∈ fs.failUnlink
      · simp [SessionManager.delete, FS.unlinkE, h1, h2]
      · simp [SessionManager.delete, FS.unlinkE, h1, h2]
    · simp [SessionManager.delete, FS.unlinkE, h1]
  · intro cfg fs id data now h
    unfold SessionManager.save
    have hw : (cleanExpiredSessions fs now).failWrite = fs.failWrite := rfl
    simp [FS.writeEntry, hw, h]

/-- C6 witness state: a write fault injected at the key `"a"`. -/
def fsWriteFail : FS := ⟨true, [], [], ["a"]⟩

/-- C6 witness configuration. -/
def cfgWriteFail : SessionConfig := ⟨"t", 1000, 20, .fifo⟩

/-- Witness for the C6 amended theorem: a concrete save against an
injected write fault surfaces the error. -/
theorem delete_total_and_save_surfaces_witness :
    SessionManager.save cfgWriteFail fsWriteFail "a" ⟨"a", 0, 0, "q"⟩ 5 = .error () :=
  delete_total_and_save_surfaces.2.2 cfgWriteFail fsWriteFail "a" ⟨"a", 0, 0, "q"⟩ 5
    (by decide)

/-! ## Pipeline lemmas about the store operations -/

/-- A successful write leaves the fresh envelope at every file whose name
is the written key. -/
lemma writeEntry_content_at_key {fs : FS} {k : String} {e : SessionCacheEntry}
    {now : Nat} {fs2 : FS} (hw : FS.writeEntry fs k e now = .ok fs2) :
    ∀ p ∈ fs2.files, p.1 = k → p.2.content = some e := by
  unfold FS.writeEntry at hw
  by_cases hfail : k ∈ fs.failWrite
  · simp [hfail] at hw
  · by_cases hex : (fs.files.find? (fun p => p.1 == k)).isSome = true
    · simp [hfail, hex] at hw
      cases hw
      intro p hp hk
      rcases List.mem_map.mp hp with ⟨p0, hp0, rfl⟩
      by_cases h0 : p0.1 = k
      · simp [h0]
      · exfalso
        apply h0
        simpa [h0] using hk
    · simp [hfail, hex] at hw
      cases hw
      intro p hp hk
      rcases List.mem_append.mp hp with h | h
      · exfalso
        apply hex
        exact List.find?_isSome.mpr ⟨p, h, by simp [hk]⟩
      · rw [List.mem_singleton.mp h]

/-- A successful write leaves every file at a different name untouched. -/
lemma writeEntry_mem_other {fs : FS} {k : String} {e : SessionCacheEntry}
    {now : Nat} {fs2 : FS} (hw : FS.writeEntry fs k e now = .ok fs2) :
    ∀ p ∈ fs2.files, p.1 ≠ k → p ∈ fs.files := by
  unfold FS.writeEntry at hw
  by_cases hfail : k ∈ fs.failWrite
  · simp [hfail] at hw
  · by_cases hex : (fs.files.find? (fun p => p.1 == k)).isSome = true
    · simp [hfail, hex] at hw
      cases hw
      intro p hp hk
      rcases List.mem_map.mp hp with ⟨p0, hp0, rfl⟩
      by_cases h0 : p0.1 = k
      · exfalso
        apply hk
        simp [h0]
      · simpa [h0] using hp0
    · simp [hfail, hex] at hw
      cases hw
      intro p hp hk
      rcases List.mem_append.mp hp with h | h
      · exact h
      · exfalso
        apply hk
        rw [List.mem_singleton.mp h]

/-- Swallowed unlinks only remove files. -/
lemma tryUnlink_files_sublist (fs : FS) (k : String) :
    (fs.tryUnlink k).files.Sublist fs.files := by
  unfold FS.tryUnlink FS.erase
  split
  · exact List.Sublist.refl _
  · exact List.filter_sublist _

/-- A fold of swallowed unlinks only removes files. -/
lemma foldl_tryUnlink_sublist (L : List (String × SFile)) (fs : FS) :
    ((L.foldl (fun s p => s.tryUnlink p.1) fs).files).Sublist fs.files := by
  induction L generalizing fs with
  | nil => exact List.Sublist.refl _
  | cons q L ih =>
    exact (ih (fs.tryUnlink q.1)).trans (tryUnlink_files_sublist fs q.1)

/-- Eviction only removes files. -/
lemma enforceSessionLimits_files_sublist (cfg : SessionConfig) (fs : FS) :
    (enforceSessionLimits cfg fs).files.Sublist fs.files := by
  unfold enforceSessionLimits
  split
  · exact List.Sublist.refl _
  · exact foldl_tryUnlink_sublist _ _

/-- A found file really is a directory entry under its key. -/
lemma find_mem {fs : FS} {k : String} {f : SFile}
    (h : FS.find fs k = some f) : (k, f) ∈ fs.files := by
  unfold FS.find at h
  cases hf : fs.files.find? (fun p => p.1 == k) with
  | none => rw [hf] at h; cases h
  | some p =>
    rw [hf] at h
    have hk : p.1 = k := by simpa using List.find?_some hf
    have hm : p ∈ fs.files := List.mem_of_find?_eq_some hf
    have hp2 : p.2 = f := by simpa using h
    have : (k, f) = p := by
      cases p
      simp_all
    rw [this]
    exact hm

/-- After the sweep, every decodable surviving file is live unless its
unlink was faulted. -/
lemma clean_keeps_only_live {fs : FS} {now : Nat} {p : String × SFile}
    {e : SessionCacheEntry} (hp : p ∈ (cleanExpiredSessions fs now).files)
    (he : p.2.content = some e) :
    now ≤ e.expiryTime ∨ p.1 ∈ fs.failUnlink := by
  unfold cleanExpiredSessions at hp
  have hpred := (List.mem_filter.mp hp).2
  rw [he] at hpred
  rcases (Bool.or_eq_true _ _).mp hpred with h | h
  · left
    have h2 : ¬ now > e.expiryTime := by simpa using h
    exact Nat.le_of_not_lt h2
  · right
    simpa using h

/-- A successful save is a successful write on the swept state followed
by eviction. -/
lemma save_ok_destruct {cfg : SessionConfig} {fs : FS} {id : String}
    {data : SessionData} {now : Nat} {fs3 : FS}
    (hs : SessionManager.save cfg fs id data now = .ok fs3) :
    ∃ fsW, FS.writeEntry (cleanExpiredSessions fs now) (getSessionKey id)
        (mkCacheEntry cfg id data now) now = .ok fsW ∧
      fs3 = enforceSessionLimits cfg fsW := by
  unfold SessionManager.save at hs
  cases hw : FS.writeEntry (cleanExpiredSessions fs now) (getSessionKey id)
      (mkCacheEntry cfg id data now) now with
  | error err => rw [hw] at hs; cases hs
  | ok fsW =>
    rw [hw] at hs
    refine ⟨fsW, rfl, ?_⟩
    injection hs with h
    exact h.symm

/-! ## Expired entries: load versus sweep (C4) -/

/-- Configuration for the C4 counterexample: TTL of 10ms, FIFO. -/
def cfgC4 : SessionConfig := ⟨"t", 10, 20, .fifo⟩

/-- Payload used in the C4 counterexample. -/
def qC4 : SessionData := ⟨"s", 0, 0, "q"⟩

/-- State after saving `"a"` at time 0 in the C4 scenario. -/
def fsAC4 : FS := ⟨true, [("a", ⟨some ⟨⟨"a", 0, 0, "q"⟩, 0, 10⟩, 0, 0⟩)], [], []⟩

/-- State after additionally saving `"b"` at time 1 in the C4 scenario. -/
def fsBC4 : FS :=
  ⟨true, [("a", ⟨some ⟨⟨"a", 0, 0, "q"⟩, 0, 10⟩, 0, 0⟩),
          ("b", ⟨some ⟨⟨"b", 0, 1, "q"⟩, 1, 11⟩, 1, 1⟩)], [], []⟩

/-- State after loading the expired `"a"` at time 20 in the C4 scenario. -/
def fsC4after : FS :=
  ⟨true, [("b", ⟨some ⟨⟨"b", 0, 1, "q"⟩, 1, 11⟩, 1, 1⟩)], [], []⟩

/-- C4 counterexample: at time 20 both stored entries are expired, yet
loading `"a"` removes only `"a"` — the equally expired `"b"` is still
physically present afterwards, so no namespace-wide sweep happened. -/
theorem expired_load_no_sweep_cex :
    SessionManager.save cfgC4 emptyFS "a" qC4 0 = .ok fsAC4 ∧
    SessionManager.save cfgC4 fsAC4 "b" qC4 1 = .ok fsBC4 ∧
    (fsBC4.files.all (fun p =>
      match p.2.content with
      | some e => decide (e.expiryTime < 20)
      | none => false)) = true ∧
    SessionManager.load cfgC4 fsBC4 "a" 20 = (none, fsC4after) ∧
    (FS.find fsC4after "b").isSome = true := by
  decide

/-- C4 amended: discovering an expired entry during `load` destroys that
entry alone (the state afterwards is exactly the one file removed) and
returns absent; the namespace-wide sweep instead runs at the start of
every `save`, so after the sweep — and hence after any successful save —
every decodable stored entry is live unless its unlink was faulted. -/
theorem expired_load_erases_one_and_save_sweeps :
    (∀ (cfg : SessionConfig) (fs : FS) (id : String) (now : Nat)
        (f : SFile) (e : SessionCacheEntry),
      FS.find fs (getSessionKey id) = some f → f.content = some e →
      now > e.expiryTime → getSessionKey id ∉ fs.failUnlink →
      SessionManager.load cfg fs id now = (none, FS.erase fs (getSessionKey id))) ∧
    (∀ (fs : FS) (now : Nat) (p : String × SFile) (e : SessionCacheEntry),
      p ∈ (cleanExpiredSessions fs now).files → p.2.content = some e →
      now ≤ e.expiryTime ∨ p.1 ∈ fs.failUnlink) ∧
    (∀ (cfg : SessionConfig) (fs : FS) (id : String) (data : SessionData)
        (now : Nat) (fs3 : FS),
      SessionManager.save cfg fs id data now = .ok fs3 →
      ∀ p ∈ fs3.files, ∀ e, p.2.content = some e →
        now ≤ e.expiryTime ∨ p.1 ∈ fs.failUnlink) := by
  refine ⟨?_, ?_, ?_⟩
  · intro cfg fs id now f e h1 h2 h3 h4
    simp [SessionManager.load, h1, h2, h3, FS.tryUnlink, h4]
  · intro fs now p e hp he
    exact clean_keeps_only_live hp he
  · intro cfg fs id data now fs3 hs p hp e he
    rcases save_ok_destruct hs with ⟨fsW, hw, rfl⟩
    have hpW : p ∈ fsW.files :=
      (enforceSessionLimits_files_sublist cfg fsW).subset hp
    by_cases hk : p.1 = getSessionKey id
    · have hc := writeEntry_content_at_key hw p hpW hk
      rw [he] at hc
      have he2 : e = mkCacheEntry cfg id data now := Option.some.inj hc
      left
      rw [he2]
      simp [mkCacheEntry]
    · have hpc : p ∈ (cleanExpiredSessions fs now).files :=
        writeEntry_mem_other hw p hpW hk
      exact clean_keeps_only_live hpc he

/-- Witness for the C4 amended theorem at a concrete expired entry. -/
theorem expired_load_erases_one_and_save_sweeps_witness :
    SessionManager.load cfgC4 fsBC4 "a" 20 =
      (none, FS.erase fsBC4 (getSessionKey "a")) :=
  expired_load_erases_one_and_save_sweeps.1 cfgC4 fsBC4 "a" 20
    ⟨some ⟨⟨"a", 0, 0, "q"⟩, 0, 10⟩, 0, 0⟩ ⟨⟨"a", 0, 0, "q"⟩, 0, 10⟩
    (by decide) rfl (by decide) (by decide)

/-! ## Corrupt entries self-heal (C5) -/

/-- C5: a stored entry whose bytes fail to decode is never surfaced:
`load` removes the corrupt physical entry and returns absent; after the
removal no file with that key remains; and everything `list` returns
comes from a file that decodes and is live, so corrupt entries never
appear in a listing (and `list` itself is total — it has no error
outcome). -/
theorem corrupt_self_heal :
    (∀ (cfg : SessionConfig) (fs : FS) (id : String) (now : Nat) (f : SFile),
      FS.find fs (getSessionKey id) = some f → f.content = none →
      getSessionKey id ∉ fs.failUnlink →
      SessionManager.load cfg fs id now = (none, FS.erase fs (getSessionKey id))) ∧
    (∀ (fs : FS) (k : String) (p : String × SFile),
      p ∈ (FS.erase fs k).files → p.1 ≠ k) ∧
    (∀ (fs : FS) (now : Nat) (d : SessionData),
      d ∈ (SessionManager.list fs now).1 →
      ∃ kf : String × SFile, kf ∈ fs.files ∧ ∃ e : SessionCacheEntry,
        kf.2.content = some e ∧ d = e.data ∧ now ≤ e.expiryTime) := by
  refine ⟨?_, ?_, ?_⟩
  · intro cfg fs id now f h1 h2 h3
    simp [SessionManager.load, h1, h2, FS.tryUnlink, h3]
  · intro fs k p hp
    have := (List.mem_filter.mp hp).2
    simpa using this
  · intro fs now d hd
    rcases List.mem_filterMap.mp hd with ⟨p, hp, heq⟩
    refine ⟨p, hp, ?_⟩
    cases hc : p.2.content with
    | none => rw [hc] at heq; cases heq
    | some e =>
      rw [hc] at heq
      by_cases hl : now ≤ e.expiryTime
      · simp [hl] at heq
        exact ⟨e, rfl, heq.symm, hl⟩
      · simp [hl] at heq

/-- Witness state for C5: a single corrupt file at the key `"a"`. -/
def fsCorrupt : FS := ⟨true, [("a", ⟨none, 3, 4⟩)], [], []⟩

/-- Witness for C5: loading the corrupt `"a"` removes it and is absent. -/
theorem corrupt_self_heal_witness :
    SessionManager.load ⟨"t", 1000, 20, .fifo⟩ fsCorrupt "a" 7 =
      (none, FS.erase fsCorrupt (getSessionKey "a")) :=
  corrupt_self_heal.1 ⟨"t", 1000, 20, .fifo⟩ fsCorrupt "a" 7 ⟨none, 3, 4⟩
    (by decide) rfl (by decide)

/-! ## What save actually writes (C10) -/

/-- C10: whatever envelope a successful `save` leaves at the session's
key carries the argument `sessionId` (overriding the one inside the
payload), `lastAccessedAt` and `savedAt` equal to the current time, the
payload's `createdAt` verbatim, and an expiry of now plus the TTL. -/
theorem save_overrides_id_and_access_time
    (cfg : SessionConfig) (fs : FS) (id : String) (data : SessionData)
    (now : Nat) (fs3 : FS) (f : SFile) (e : SessionCacheEntry)
    (hs : SessionManager.save cfg fs id data now = .ok fs3)
    (hf : FS.find fs3 (getSessionKey id) = some f)
    (hc : f.content = some e) :
    e.data.sessionId = id ∧ e.data.lastAccessedAt = now ∧
    e.data.createdAt = data.createdAt ∧ e.data.payload = data.payload ∧
    e.timestamp = now ∧ e.expiryTime = now + cfg.ttl := by
  rcases save_ok_destruct hs with ⟨fsW, hw, rfl⟩
  have hmem : (getSessionKey id, f) ∈ fsW.files :=
    (enforceSessionLimits_files_sublist cfg fsW).subset (find_mem hf)
  have hcc := writeEntry_content_at_key hw (getSessionKey id, f) hmem rfl
  rw [hc] at hcc
  have he : e = mkCacheEntry cfg id data now := Option.some.inj hcc
  rw [he]
  simp [mkCacheEntry]

/-- Concrete configuration for the C10 witness. -/
def cfgC10 : SessionConfig := ⟨"t", 1000, 20, .fifo⟩

/-- Witness payload for C10, carrying a conflicting inner `sessionId`
and a stale `lastAccessedAt`. -/
def dataC10 : SessionData := ⟨"other", 5, 7, "pl"⟩

/-- State written by the C10 witness save. -/
def fsC10 : FS :=
  ⟨true, [("a", ⟨some ⟨⟨"a", 5, 10, "pl"⟩, 10, 1010⟩, 10, 10⟩)], [], []⟩

/-- Witness for C10: a concrete save whose payload carries `sessionId`
`"other"` and `lastAccessedAt` 7 is stored with `sessionId` `"a"` and
`lastAccessedAt` 10, while `createdAt` 5 passes through. -/
theorem save_overrides_id_and_access_time_witness :
    (⟨⟨"a", 5, 10, "pl"⟩, 10, 1010⟩ : SessionCacheEntry).data.sessionId = "a" ∧
    (⟨⟨"a", 5, 10, "pl"⟩, 10, 1010⟩ : SessionCacheEntry).data.lastAccessedAt = 10 ∧
    (⟨⟨"a", 5, 10, "pl"⟩, 10, 1010⟩ : SessionCacheEntry).data.createdAt = dataC10.createdAt ∧
    (⟨⟨"a", 5, 10, "pl"⟩, 10, 1010⟩ : SessionCacheEntry).data.payload = dataC10.payload ∧
    (⟨⟨"a", 5, 10, "pl"⟩, 10, 1010⟩ : SessionCacheEntry).timestamp = 10 ∧
    (⟨⟨"a", 5, 10, "pl"⟩, 10, 1010⟩ : SessionCacheEntry).expiryTime = 10 + cfgC10.ttl :=
  save_overrides_id_and_access_time cfgC10 emptyFS "a" dataC10 10 fsC10
    ⟨some ⟨⟨"a", 5, 10, "pl"⟩, 10, 1010⟩, 10, 10⟩ ⟨⟨"a", 5, 10, "pl"⟩, 10, 1010⟩
    (by decide) (by decide) rfl

/-! ## Single-key scenario lemmas -/

/-- Saving into a fresh filesystem produces exactly one file holding the
freshly built envelope, with both stat times at the save instant. -/
lemma save_empty_eq (cfg : SessionConfig) (id : String) (data : SessionData)
    (t : Nat) (hmax : 1 ≤ cfg.maxSessions) :
    SessionManager.save cfg emptyFS id data t =
      .ok ⟨true, [(getSessionKey id, ⟨some (mkCacheEntry cfg id data t), t, t⟩)],
        [], []⟩ := by
  simp [SessionManager.save, emptyFS, cleanExpiredSessions, FS.writeEntry,
    enforceSessionLimits, hmax]

/-- Re-saving the only session overwrites its envelope in place: the
file keeps its birth time, gets the new modification time, and no
sweep or eviction touches it while the old envelope is still live. -/
lemma save_existing_eq (cfg : SessionConfig) (id : String) (data : SessionData)
    (t2 b m : Nat) (e : SessionCacheEntry) (db : Bool)
    (hmax : 1 ≤ cfg.maxSessions) (hlive : ¬ t2 > e.expiryTime) :
    SessionManager.save cfg ⟨db, [(getSessionKey id, ⟨some e, b, m⟩)], [], []⟩
        id data t2 =
      .ok ⟨true, [(getSessionKey id, ⟨some (mkCacheEntry cfg id data t2), b, t2⟩)],
        [], []⟩ := by
  simp [SessionManager.save, cleanExpiredSessions, FS.writeEntry,
    enforceSessionLimits, hmax, hlive]

/-- Loading the only session: expired yields absent and deletion; live
yields the record, rewritten with a bumped access time under LRU. -/
lemma load_singleton (cfg : SessionConfig) (id : String) (e : SessionCacheEntry)
    (b m n : Nat) (db : Bool) :
    SessionManager.load cfg ⟨db, [(getSessionKey id, ⟨some e, b, m⟩)], [], []⟩
        id n =
      if n > e.expiryTime then (none, ⟨db, [], [], []⟩)
      else if cfg.evictionPolicy = .lru then
        (some { e.data with lastAccessedAt := n },
          ⟨db, [(getSessionKey id,
            ⟨some ⟨{ e.data with lastAccessedAt := n }, n, e.expiryTime⟩, b, n⟩)],
            [], []⟩)
      else (some e.data, ⟨db, [(getSessionKey id, ⟨some e, b, m⟩)], [], []⟩) := by
  by_cases hx : n > e.expiryTime
  · simp [SessionManager.load, FS.find, FS.tryUnlink, FS.erase, hx]
  · by_cases hp : cfg.evictionPolicy = .lru
    · simp [SessionManager.load, FS.find, FS.writeEntry, hx, hp]
    · simp [SessionManager.load, FS.find, hx, hp]

/-! ## createdAt across repeated saves (C1) -/

/-- Configuration for the C1 counterexample. -/
def cfgC1 : SessionConfig := ⟨"t", 1000, 20, .fifo⟩

/-- First payload of the C1 counterexample, carrying `createdAt = 1`. -/
def pOneC1 : SessionData := ⟨"a", 1, 0, "p1"⟩

/-- Second payload of the C1 counterexample, carrying `createdAt = 99`. -/
def pTwoC1 : SessionData := ⟨"a", 99, 0, "p2"⟩

/-- State after the first C1 save. -/
def fsOneC1 : FS := ⟨true, [("a", ⟨some ⟨⟨"a", 1, 10, "p1"⟩, 10, 1010⟩, 10, 10⟩)], [], []⟩

/-- State after the second C1 save. -/
def fsTwoC1 : FS := ⟨true, [("a", ⟨some ⟨⟨"a", 99, 20, "p2"⟩, 20, 1020⟩, 10, 20⟩)], [], []⟩

/-- C1 counterexample: the first save stores `createdAt = 1`; re-saving
the same session with a payload carrying `createdAt = 99` stores 99, and
the subsequent load returns 99 — the store does not load the prior
entry's `createdAt`, so the record's original creation time is lost. -/
theorem save_twice_returns_second_createdAt_cex :
    pOneC1.createdAt = 1 ∧ pTwoC1.createdAt = 99 ∧
    SessionManager.save cfgC1 emptyFS "a" pOneC1 10 = .ok fsOneC1 ∧
    SessionManager.save cfgC1 fsOneC1 "a" pTwoC1 20 = .ok fsTwoC1 ∧
    (SessionManager.load cfgC1 fsTwoC1 "a" 30).1 = some ⟨"a", 99, 20, "p2"⟩ := by
  decide

/-- C1 amended: `save` never reads the prior entry — it stores the
caller's `createdAt` verbatim on every save, and `createdAt` is never
set to the current time by the store; hence after saving the same
session twice, `load` returns the second payload's `createdAt` (which
equals the first save's only if the caller carried it over). -/
theorem resave_stores_callers_createdAt
    (cfg : SessionConfig) (id : String) (p1 p2 : SessionData)
    (t1 t2 t3 : Nat) (fs1 fs2 : FS)
    (hmax : 1 ≤ cfg.maxSessions)
    (h12 : t2 ≤ t1 + cfg.ttl)
    (h23 : t3 ≤ t2 + cfg.ttl)
    (hs1 : SessionManager.save cfg emptyFS id p1 t1 = .ok fs1)
    (hs2 : SessionManager.save cfg fs1 id p2 t2 = .ok fs2) :
    ∃ d : SessionData, (SessionManager.load cfg fs2 id t3).1 = some d ∧
      d.createdAt = p2.createdAt ∧ d.sessionId = id ∧ d.payload = p2.payload := by
  rw [save_empty_eq cfg id p1 t1 hmax] at hs1
  injection hs1 with h1
  subst h1
  have hlive : ¬ t2 > (mkCacheEntry cfg id p1 t1).expiryTime := by
    simp only [mkCacheEntry, gt_iff_lt, Nat.not_lt]
    exact h12
  rw [save_existing_eq cfg id p2 t2 t1 t1 (mkCacheEntry cfg id p1 t1) true
    hmax hlive] at hs2
  injection hs2 with h2
  subst h2
  rw [load_singleton cfg id (mkCacheEntry cfg id p2 t2) t1 t2 t3 true]
  have hlive3 : ¬ t3 > (mkCacheEntry cfg id p2 t2).expiryTime := by
    simp only [mkCacheEntry, gt_iff_lt, Nat.not_lt]
    exact h23
  rw [if_neg hlive3]
  by_cases hp : cfg.evictionPolicy = .lru
  · rw [if_pos hp]
    exact ⟨_, rfl, by simp [mkCacheEntry], by simp [mkCacheEntry], by simp [mkCacheEntry]⟩
  · rw [if_neg hp]
    exact ⟨_, rfl, by simp [mkCacheEntry], by simp [mkCacheEntry], by simp [mkCacheEntry]⟩

/-- Witness for the C1 amended theorem on the concrete double save. -/
theorem resave_stores_callers_createdAt_witness :
    ∃ d : SessionData, (SessionManager.load cfgC1 fsTwoC1 "a" 30).1 = some d ∧
      d.createdAt = pTwoC1.createdAt ∧ d.sessionId = "a" ∧
      d.payload = pTwoC1.payload :=
  resave_stores_callers_createdAt cfgC1 "a" pOneC1 pTwoC1 10 20 30 fsOneC1 fsTwoC1
    (by decide) (by decide) (by decide) (by decide) (by decide)

/-! ## TTL boundary (C3) -/

/-- C3: a record saved at time `t` with TTL `T` gets `expiresAt = t + T`;
loading it is live at `t + T - 1`, absent at `t + T + 1`, and in general
the load succeeds exactly when `now ≤ t + T`. -/
theorem ttl_boundary_live_iff
    (cfg : SessionConfig) (id : String) (data : SessionData) (t : Nat) (fs1 : FS)
    (hmax : 1 ≤ cfg.maxSessions) (httl : 1 ≤ cfg.ttl)
    (hs : SessionManager.save cfg emptyFS id data t = .ok fs1) :
    ((SessionManager.load cfg fs1 id (t + cfg.ttl - 1)).1).isSome = true ∧
    (SessionManager.load cfg fs1 id (t + cfg.ttl + 1)).1 = none ∧
    ∀ n : Nat, ((SessionManager.load cfg fs1 id n).1).isSome = true ↔
      n ≤ t + cfg.ttl := by
  rw [save_empty_eq cfg id data t hmax] at hs
  injection hs with h
  subst h
  have hiff : ∀ n : Nat,
      ((SessionManager.load cfg
        ⟨true, [(getSessionKey id, ⟨some (mkCacheEntry cfg id data t), t, t⟩)],
          [], []⟩ id n).1).isSome = true ↔ n ≤ t + cfg.ttl := by
    intro n
    rw [load_singleton cfg id (mkCacheEntry cfg id data t) t t n true]
    by_cases hn : n > (mkCacheEntry cfg id data t).expiryTime
    · rw [if_pos hn]
      simp only [mkCacheEntry, gt_iff_lt] at hn
      simp only [Option.isSome_none, Bool.false_eq_true, false_iff]
      omega
    · rw [if_neg hn]
      simp only [mkCacheEntry, gt_iff_lt, Nat.not_lt] at hn
      by_cases hp : cfg.evictionPolicy = .lru
      · rw [if_pos hp]
        simpa using hn
      · rw [if_neg hp]
        simpa using hn
  refine ⟨(hiff _).mpr (Nat.sub_le _ _), ?_, hiff⟩
  rw [load_singleton cfg id (mkCacheEntry cfg id data t) t t _ true]
  have hgt : t + cfg.ttl + 1 > (mkCacheEntry cfg id data t).expiryTime := by
    simp [mkCacheEntry]
  rw [if_pos hgt]

/-- Configuration for the C3 witness (LRU, TTL 1000ms). -/
def cfgC3 : SessionConfig := ⟨"t", 1000, 20, .lru⟩

/-- Payload for the C3 witness. -/
def dataC3 : SessionData := ⟨"s", 2, 3, "pl"⟩

/-- State after the C3 witness save at time 5. -/
def fsOneC3 : FS := ⟨true, [("s", ⟨some ⟨⟨"s", 2, 5, "pl"⟩, 5, 1005⟩, 5, 5⟩)], [], []⟩

/-- Witness for C3 at a concrete save: live one tick before expiry,
absent one tick after. -/
theorem ttl_boundary_live_iff_witness :
    ((SessionManager.load cfgC3 fsOneC3 "s" (5 + cfgC3.ttl - 1)).1).isSome = true ∧
    (SessionManager.load cfgC3 fsOneC3 "s" (5 + cfgC3.ttl + 1)).1 = none :=
  ⟨(ttl_boundary_live_iff cfgC3 "s" dataC3 5 fsOneC3 (by decide) (by decide)
      (by decide)).1,
   (ttl_boundary_live_iff cfgC3 "s" dataC3 5 fsOneC3 (by decide) (by decide)
      (by decide)).2.1⟩

/-! ## Eviction (C2) -/

/-- Swallowed unlinks do not change the fault lists. -/
lemma tryUnlink_failUnlink (fs : FS) (k : String) :
    (fs.tryUnlink k).failUnlink = fs.failUnlink := by
  unfold FS.tryUnlink FS.erase
  split <;> rfl

/-- With no unlink faults, removing a batch of files by key is a filter
on the directory. -/
lemma foldl_tryUnlink_files_eq (L : List (String × SFile)) (fs : FS)
    (hfail : fs.failUnlink = []) :
    (L.foldl (fun s p => s.tryUnlink p.1) fs).files
      = fs.files.filter (fun p => !((L.map Prod.fst).contains p.1)) := by
  induction L generalizing fs with
  | nil => simp
  | cons q L ih =>
    have h1 : (fs.tryUnlink q.1).failUnlink = [] := by
      rw [tryUnlink_failUnlink]
      exact hfail
    rw [List.foldl_cons, ih _ h1]
    have h2 : fs.tryUnlink q.1 = fs.erase q.1 := by
      unfold FS.tryUnlink
      rw [hfail]
      rfl
    rw [h2]
    unfold FS.erase
    rw [List.filter_filter]
    apply List.filter_congr
    intro p _
    cases hq : p.1 == q.1 <;> cases hL : (L.map Prod.fst).contains p.1 <;>
      (simp only [List.map_cons, List.contains_cons, bne, hq, hL]; rfl)

/-- Configuration for the C2 counterexample: capacity 1, FIFO. -/
def cfgC2 : SessionConfig := ⟨"t", 1000, 1, .fifo⟩

/-- First C2 payload: `createdAt = 100` (younger by record time). -/
def paC2 : SessionData := ⟨"a", 100, 0, "pa"⟩

/-- Second C2 payload: `createdAt = 5` (oldest by record time). -/
def pbC2 : SessionData := ⟨"b", 5, 0, "pb"⟩

/-- State after the first C2 save. -/
def fsAC2 : FS := ⟨true, [("a", ⟨some ⟨⟨"a", 100, 10, "pa"⟩, 10, 1010⟩, 10, 10⟩)], [], []⟩

/-- State after the second C2 save and its eviction. -/
def fsBC2 : FS := ⟨true, [("b", ⟨some ⟨⟨"b", 5, 20, "pb"⟩, 20, 1020⟩, 20, 20⟩)], [], []⟩

/-- C2 counterexample: under FIFO with capacity 1, the session whose
stored record carries the oldest `createdAt` (`"b"`, createdAt 5) is the
one that survives, while `"a"` (createdAt 100) is evicted — eviction
ordered by the physical file's creation time, not by the record's
`createdAt` field. -/
theorem fifo_eviction_ignores_record_createdAt_cex :
    paC2.createdAt = 100 ∧ pbC2.createdAt = 5 ∧
    cfgC2.evictionPolicy = .fifo ∧ cfgC2.maxSessions = 1 ∧
    SessionManager.save cfgC2 emptyFS "a" paC2 10 = .ok fsAC2 ∧
    SessionManager.save cfgC2 fsAC2 "b" pbC2 20 = .ok fsBC2 ∧
    FS.find fsBC2 "a" = none ∧ (FS.find fsBC2 "b").isSome = true := by
  decide

/-- Configuration for the C2 FIFO scenario conjunct: capacity 2, FIFO. -/
def cfgScen2 : SessionConfig := ⟨"t", 1000, 2, .fifo⟩

/-- Payload for the C2 FIFO scenario conjunct. -/
def qScen2 : SessionData := ⟨"s", 0, 0, "q"⟩

/-- Scenario state after saving `"a"` at time 1. -/
def fsX2 : FS := ⟨true, [("a", ⟨some ⟨⟨"a", 0, 1, "q"⟩, 1, 1001⟩, 1, 1⟩)], [], []⟩

/-- Scenario state after additionally saving `"b"` at time 2. -/
def fsY2 : FS := ⟨true, [("a", ⟨some ⟨⟨"a", 0, 1, "q"⟩, 1, 1001⟩, 1, 1⟩),
                        ("b", ⟨some ⟨⟨"b", 0, 2, "q"⟩, 2, 1002⟩, 2, 2⟩)], [], []⟩

/-- Scenario state after the third save evicted the earliest file. -/
def fsZ2 : FS := ⟨true, [("b", ⟨some ⟨⟨"b", 0, 2, "q"⟩, 2, 1002⟩, 2, 2⟩),
                        ("c", ⟨some ⟨⟨"c", 0, 3, "q"⟩, 3, 1003⟩, 3, 3⟩)], [], []⟩

/-- C2 amended: when eviction runs with more files than the capacity (and
no injected unlink faults, distinct keys), it removes exactly
`count - maxSessions` files, and every removed file precedes every kept
file in the policy's stat-time order — FIFO by the file's creation time
(time of first save at that key), LRU by its modification time (last
write) — not by the record's `createdAt` or `lastAccessedAt` fields.
With capacity 2 and three FIFO saves in increasing order, exactly the
earliest-saved session is gone and the other two remain. -/
theorem eviction_count_and_order_by_stat_time
    (cfg : SessionConfig) (fs : FS)
    (hnd : (fs.files.map Prod.fst).Nodup)
    (hfail : fs.failUnlink = [])
    (hover : cfg.maxSessions < fs.files.length) :
    ((enforceSessionLimits cfg fs).files.length = cfg.maxSessions ∧
      (∀ p ∈ fs.files, p ∉ (enforceSessionLimits cfg fs).files →
        ∀ r ∈ (enforceSessionLimits cfg fs).files,
          evKey cfg.evictionPolicy p ≤ evKey cfg.evictionPolicy r)) ∧
    (SessionManager.save cfgScen2 emptyFS "a" qScen2 1 = .ok fsX2 ∧
      SessionManager.save cfgScen2 fsX2 "b" qScen2 2 = .ok fsY2 ∧
      SessionManager.save cfgScen2 fsY2 "c" qScen2 3 = .ok fsZ2 ∧
      FS.find fsZ2 "a" = none ∧ (FS.find fsZ2 "b").isSome = true ∧
      (FS.find fsZ2 "c").isSome = true) := by
  refine ⟨?_, by decide⟩
  set pol := cfg.evictionPolicy with hpol
  set d := fs.files.length - cfg.maxSessions with hd
  set srt := List.insertionSort (evLe pol) fs.files with hsrt
  set prd := (fun p : String × SFile =>
    !(((srt.take d).map Prod.fst).contains p.1)) with hprd
  have hnle : ¬ fs.files.length ≤ cfg.maxSessions := Nat.not_le.mpr hover
  have henf : (enforceSessionLimits cfg fs).files = fs.files.filter prd := by
    unfold enforceSessionLimits
    rw [if_neg hnle]
    exact foldl_tryUnlink_files_eq _ _ hfail
  have hperm : srt.Perm fs.files := List.perm_insertionSort _ _
  have hsorted : List.Pairwise (evLe pol) srt :=
    List.sorted_insertionSort (evLe pol) fs.files
  have hndS : (srt.map Prod.fst).Nodup := ((hperm.map Prod.fst).symm).nodup hnd
  have hndsrt : srt.Nodup := List.Nodup.of_map _ hndS
  have hsplit : srt.take d ++ srt.drop d = srt := List.take_append_drop _ _
  have hdisj : (srt.take d).Disjoint (srt.drop d) := by
    apply List.disjoint_of_nodup_append
    rw [hsplit]
    exact hndsrt
  have hinj : ∀ ⦃x⦄, x ∈ srt → ∀ ⦃y⦄, y ∈ srt → x.1 = y.1 → x = y :=
    fun x hx y hy h => List.inj_on_of_nodup_map hndS hx hy h
  have hAkey : ∀ p ∈ srt.drop d,
      (((srt.take d).map Prod.fst).contains p.1) = false := by
    intro p hp
    by_contra hcon
    simp only [Bool.not_eq_false] at hcon
    have hcon2 : p.1 ∈ (srt.take d).map Prod.fst := List.mem_of_elem_eq_true hcon
    rcases List.mem_map.mp hcon2 with ⟨r, hr, hrk⟩
    have hreq : r = p := hinj (List.mem_of_mem_take hr) (List.mem_of_mem_drop hp) hrk
    exact hdisj (hreq ▸ hr) hp
  have hdropfull : (srt.drop d).filter prd = srt.drop d :=
    List.filter_eq_self.mpr (fun p hp => by
      simp only [hprd, hAkey p hp, Bool.not_false])
  have htakenil : (srt.take d).filter prd = [] :=
    List.filter_eq_nil_iff.mpr (fun p hp => by
      have hc : ((srt.take d).map Prod.fst).contains p.1 = true :=
        List.elem_eq_true_of_mem (List.mem_map_of_mem Prod.fst hp)
      simp only [hprd, hc, Bool.not_true]
      simp)
  have hfiltersrt : srt.filter prd = srt.drop d := by
    conv_lhs => rw [← hsplit]
    rw [List.filter_append, htakenil, hdropfull, List.nil_append]
  have hkept : (enforceSessionLimits cfg fs).files.Perm (srt.drop d) := by
    have h1 := (hperm.filter prd).symm
    rw [hfiltersrt] at h1
    rw [henf]
    exact h1
  constructor
  · rw [hkept.length_eq, List.length_drop, hperm.length_eq]
    omega
  · intro p hpf hpk r hrk
    have hr : r ∈ srt.drop d := hkept.mem_iff.mp hrk
    have hpS : p ∈ srt := hperm.mem_iff.mpr hpf
    have hcon : (((srt.take d).map Prod.fst).contains p.1) = true := by
      by_contra hcc
      simp only [Bool.not_eq_true] at hcc
      apply hpk
      rw [henf]
      refine List.mem_filter.mpr ⟨hpf, ?_⟩
      simp only [hprd, hcc, Bool.not_false]
    have hmem : p.1 ∈ (srt.take d).map Prod.fst := List.mem_of_elem_eq_true hcon
    rcases List.mem_map.mp hmem with ⟨r0, hr0, hr0k⟩
    have hr0p : r0 = p := hinj (List.mem_of_mem_take hr0) hpS hr0k
    have hpT : p ∈ srt.take d := hr0p ▸ hr0
    have hpair : List.Pairwise (evLe pol) (srt.take d ++ srt.drop d) := by
      rw [hsplit]
      exact hsorted
    exact (List.pairwise_append.mp hpair).2.2 p hpT r hr

/-- Configuration for the C2 witness: capacity 2, FIFO. -/
def cfgEvW : SessionConfig := ⟨"t", 1000, 2, .fifo⟩

/-- Over-capacity directory for the C2 witness: three files with
distinct keys and strictly increasing birth times. -/
def fsEvW : FS :=
  ⟨true, [("a", ⟨some ⟨⟨"a", 0, 1, "q"⟩, 1, 1001⟩, 1, 1⟩),
          ("b", ⟨some ⟨⟨"b", 0, 2, "q"⟩, 2, 1002⟩, 2, 2⟩),
          ("c", ⟨some ⟨⟨"c", 0, 3, "q"⟩, 3, 1003⟩, 3, 3⟩)], [], []⟩

/-- Witness for the C2 amended theorem: eviction on the concrete
over-capacity directory brings the count down to exactly the capacity. -/
theorem eviction_count_and_order_by_stat_time_witness :
    (enforceSessionLimits cfgEvW fsEvW).files.length = cfgEvW.maxSessions :=
  (eviction_count_and_order_by_stat_time cfgEvW fsEvW (by decide) rfl
    (by decide)).1.1
